import Mathlib

/-!
# QuizMaster web app — verification of the Resumable Session & Idempotent Reward Model

Shallow embedding, in Lean 4, of the persistence / reward subsystem of the
QuizMaster trivia application (Vue 3 + Pinia, TypeScript).  Each definition is a
direct translation of a source function:

* the coin ledger store (`useCoinsStore`: `add`, `spend`) — QuestionCard.vue bundle;
* the deterministic daily selector (`seededHash`, `makeRng` xorshift32,
  `pickDeterministic`) — daily quiz store;
* the tournament medal calculator (`computeMedals`);
* the daily streak rule (`calcStreakOnCompletion`);
* the category unlock evaluator (`evaluateUnlocksFromScore`) — QuizHeader.vue bundle;
* the standard quiz session store (`useQuizStore`: `selectOption`, `submitAnswer`,
  `safeReadSession`, `buildSession`, `hasSavedSession`, `resumeIfAvailable`,
  `useFiftyFifty`) and the daily quiz store's `useFiftyFifty`.

Modelling conventions, used throughout:

* JavaScript 32-bit integer bit operations are modelled on `Nat` with explicit
  `% 4294967296`; signed/unsigned views coincide bit-for-bit, and `x >>> 0`
  is the identity on the `Nat` representation.
* JavaScript `number` quantities that the code treats arithmetically are
  modelled as `Int` or `ℚ`; a value that can be `NaN`/`Infinity` is modelled as
  an `Option` with `none` for the non-finite case (every comparison the source
  performs on such a value is false, which `none` reproduces).
* `localStorage` holds the JSON-parse of the last write; we model the stored
  slot as `Option` of the typed snapshot record (round-tripping a well-formed
  record through `JSON.stringify`/`JSON.parse` is the identity on these shapes,
  and the `typeof` shape checks of the readers are identically true on the
  typed representation).  `Date.now()` is passed in as an explicit `ts : Nat`.
* JavaScript `Record` objects keyed by question id are association lists
  `List (String × β)` with JS object-update semantics (overwrite in place,
  insert at the end); numeric ids are represented by their string coercion,
  exactly as JS object keying coerces them.
* An `Array.prototype.sort` call whose comparator consults a random source
  (`Math.random() - 0.5`, or a seeded rng) produces an engine-defined
  permutation of its input; such a call is modelled by an explicit function
  parameter together with the hypothesis that it permutes its input.
-/

namespace QuizMaster

/-! ## JS array primitives

`jsGet l k` is `l[k]` on a JS array whose element slots may hold `undefined`
(`none`): out-of-range reads yield `undefined`.  `jsSet l k v` is `l[k] = v`:
in-range writes replace, a write at `l.length` appends, and a write past the
end fills the gap with holes (`undefined`).  `jsSlice l e` is `l.slice(0, e)`
with JS end-index semantics: a negative `e` counts from the end of the array,
clamped at 0. -/

def jsGet : List (Option β) → Nat → Option β
  | [], _ => none
  | x :: _, 0 => x
  | _ :: t, k + 1 => jsGet t k

def jsSet : List (Option β) → Nat → Option β → List (Option β)
  | [], 0, v => [v]
  | [], k + 1, v => none :: jsSet [] k v
  | _ :: t, 0, v => v :: t
  | x :: t, k + 1, v => x :: jsSet t k v

def jsSlice (l : List α) (e : Int) : List α :=
  l.take (if e < 0 then ((l.length : Int) + e).toNat else min e.toNat l.length)

/-! ## JS record (object keyed by strings) primitives -/

def recGet (m : List (String × β)) (k : String) : Option β :=
  (m.find? (fun p => p.1 = k)).map (·.2)

def recSet (m : List (String × β)) (k : String) (v : β) : List (String × β) :=
  if m.any (fun p => p.1 = k) then
    m.map (fun p => if p.1 = k then (k, v) else p)
  else
    m ++ [(k, v)]

/-! ## Coin ledger (`useCoinsStore`)

Translated from the coins store: `CoinHistoryItem`, `CoinsState`, and the
actions `add` and `spend`.  `meta` values are `string | number`.  `save()`
persists the full state verbatim, so the in-memory `CoinsState` is the whole
observable state and the storage mirror is not modelled separately. -/

inductive CoinReason
  | correctAnswer
  | quizComplete
  | challengeWin
  | dailyComplete
  | bonus
deriving DecidableEq, Repr

abbrev MetaVal := String ⊕ Int

structure CoinHistoryItem where
  id : String
  ts : Nat
  delta : Int
  reason : CoinReason
  meta : Option (List (String × MetaVal))
deriving DecidableEq, Repr

structure CoinsState where
  balance : Int
  lifetimeEarned : Int
  history : List CoinHistoryItem
  version : Nat
deriving DecidableEq, Repr

def CoinsState.initial : CoinsState :=
  { balance := 0, lifetimeEarned := 0, history := [], version := 1 }

/-- `add(delta, reason, id, meta?)` of the coins store.  An empty `id` is
rejected (logged, not applied); an `id` already present in `history` makes the
call a no-op; otherwise the entry is appended, `delta` is added to the balance,
and a positive `delta` is also added to `lifetimeEarned`.  `ts` is the
`Date.now()` timestamp of the call. -/
def CoinsState.add (s : CoinsState) (delta : Int) (reason : CoinReason) (id : String)
    (meta : Option (List (String × MetaVal))) (ts : Nat) : CoinsState :=
  if id = "" then s
  else if s.history.any (fun h => h.id = id) then s
  else
    { s with
      history := s.history ++ [{ id := id, ts := ts, delta := delta, reason := reason, meta := meta }]
      balance := s.balance + delta
      lifetimeEarned := s.lifetimeEarned + (if delta > 0 then delta else 0) }

/-! ## Deterministic daily selector (`seededHash`, `makeRng`, `pickDeterministic`)

Translated from the daily quiz store.  All 32-bit JS integer arithmetic is done
on `Nat` modulo `4294967296`; `Math.imul` is multiplication mod 2^32 and the
`>>> 0` coercions are the identity on this representation.  `charCodeAt`
returns UTF-16 code units, which agree with `Char.toNat` on the Basic
Multilingual Plane.

`makeRng`'s closure holds a mutable 32-bit state advanced by xorshift32; we
thread that state explicitly.  Its return value is `(s >>> 0) / 0xffffffff`,
which we carry as the exact numerator `s` (the produced index
`Math.floor(rng() * (i + 1))` is rendered as `s * (i + 1) / 4294967295` in
exact integer arithmetic).  A JS array read `arr[j]` with `j` out of range (or
`j` itself `undefined`) yields `undefined`, hence the `Option`-valued slots. -/

def seededHash (s : String) : Nat :=
  let h := s.data.foldl (fun h c => ((h ^^^ c.toNat) * 16777619) % 4294967296) 2166136261
  if h = 0 then 1 else h

def xorshiftStep (s : Nat) : Nat :=
  let a := (s ^^^ (s <<< 13)) % 4294967296
  let b := a ^^^ (a >>> 17)
  (b ^^^ (b <<< 5)) % 4294967296

/-- The destructuring swap `[indices[i], indices[j]] = [indices[j], indices[i]]`:
both reads happen first, then the write at `i`, then the write at `j`. -/
def jsSwap (l : List (Option Nat)) (i j : Nat) : List (Option Nat) :=
  jsSet (jsSet l i (jsGet l j)) j (jsGet l i)

/-- The loop `for (let i = indices.length - 1; i > 0; i--)` of
`pickDeterministic`, with the rng state threaded; the counter argument is the
current value of `i`. -/
def fisherYatesLoop : List (Option Nat) → Nat → Nat → List (Option Nat) × Nat
  | indices, st, 0 => (indices, st)
  | indices, st, k + 1 =>
    let i := k + 1
    let st' := xorshiftStep st
    let j := st' * (i + 1) / 4294967295
    fisherYatesLoop (jsSwap indices i j) st' k

/-- `pickDeterministic(arr, n, rng)` with the rng replaced by its initial
32-bit state `s0`.  Deterministically shuffles the index array by a partial
Fisher-Yates driven by xorshift32, then returns
`indices.slice(0, Math.min(n, indices.length)).map(i => arr[i])`. -/
def pickDeterministic (arr : List α) (n : Int) (s0 : Nat) : List (Option α) :=
  let indices := (List.range arr.length).map some
  let ind := (fisherYatesLoop indices s0 (arr.length - 1)).1
  let e : Int := min n (ind.length : Int)
  (jsSlice ind e).map (fun oi => oi.bind (fun i => arr.get? i))

/-- The ambient JS facilities (`Date.now`, the `Math.random` stream) available
to the page.  The daily selection path of `prepareToday` never consults them:
its translation below takes the ambient world as an argument and does not use
it. -/
structure JsAmbient where
  now : Nat
  random : Nat → ℚ

/-- The question-selection steps of `prepareToday`: hash the composite seed,
seed the xorshift32 generator from it, and run the partial Fisher-Yates
selection.  The `JsAmbient` argument models the wall clock and `Math.random`,
which this path never reads. -/
def selectQuestions (_env : JsAmbient) (seed : String) (src : List α) (count : Int) :
    List (Option α) :=
  pickDeterministic src count (seededHash seed)

end QuizMaster

namespace QuizMaster

/-! ### Helper lemmas about the JS array primitives -/

theorem jsGet_jsSet (l : List (Option β)) (k p : Nat) (v : Option β) :
    jsGet (jsSet l k v) p = if p = k then v else jsGet l p := by
  induction l generalizing k p with
  | nil =>
    induction k generalizing p with
    | zero => cases p <;> simp [jsSet, jsGet]
    | succ k ih => cases p <;> simp [jsSet, jsGet, ih]
  | cons x t ih =>
    cases k with
    | zero => cases p <;> simp [jsSet, jsGet]
    | succ k => cases p <;> simp [jsSet, jsGet, ih]

theorem mem_of_jsGet (l : List (Option β)) (p : Nat) (x : β) (h : jsGet l p = some x) :
    some x ∈ l := by
  induction l generalizing p with
  | nil => simp [jsGet] at h
  | cons y t ih =>
    cases p with
    | zero => simp [jsGet] at h; simp [h]
    | succ p => exact List.mem_cons_of_mem _ (ih p h)

theorem exists_jsGet_of_mem (l : List (Option β)) (x : β) (h : some x ∈ l) :
    ∃ p, jsGet l p = some x := by
  induction l with
  | nil => simp at h
  | cons y t ih =>
    rcases List.mem_cons.mp h with h | h
    · exact ⟨0, by simp [jsGet, h.symm]⟩
    · obtain ⟨p, hp⟩ := ih h
      exact ⟨p + 1, by simpa [jsGet] using hp⟩

theorem mem_jsSwap (l : List (Option Nat)) (i j x : Nat) (h : some x ∈ l) :
    some x ∈ jsSwap l i j := by
  obtain ⟨p, hp⟩ := exists_jsGet_of_mem l x h
  by_cases hpj : p = j
  · subst hpj
    refine mem_of_jsGet _ i x ?_
    by_cases hij : i = p
    · subst hij
      simp [jsSwap, jsGet_jsSet, hp]
    · simp [jsSwap, jsGet_jsSet, hij, hp]
  · by_cases hpi : p = i
    · subst hpi
      refine mem_of_jsGet _ j x ?_
      simp [jsSwap, jsGet_jsSet, hp]
    · refine mem_of_jsGet _ p x ?_
      simp [jsSwap, jsGet_jsSet, hpi, hpj, hp]

theorem jsSet_length (l : List (Option β)) (k : Nat) (v : Option β) :
    (jsSet l k v).length = max l.length (k + 1) := by
  induction l generalizing k with
  | nil =>
    induction k with
    | zero => simp [jsSet]
    | succ k ih => simp [jsSet, ih]
  | cons x t ih =>
    cases k with
    | zero => simp [jsSet]
    | succ k =>
      simp [jsSet, ih]
      omega

theorem xorshiftStep_lt (s : Nat) : xorshiftStep s < 4294967296 := by
  simp only [xorshiftStep]
  exact Nat.mod_lt _ (by norm_num)

theorem fisherYatesLoop_mem (ind : List (Option Nat)) (st c x : Nat)
    (h : some x ∈ ind) : some x ∈ (fisherYatesLoop ind st c).1 := by
  induction c generalizing ind st with
  | zero => simpa [fisherYatesLoop] using h
  | succ k ih => exact ih _ _ (mem_jsSwap _ _ _ _ h)

theorem fisherYatesLoop_length (ind : List (Option Nat)) (st c : Nat)
    (h : c < ind.length) :
    ((fisherYatesLoop ind st c).1).length ≤ max ind.length (c + 2) := by
  induction c generalizing ind st with
  | zero => simp [fisherYatesLoop]
  | succ k ih =>
    have hj : xorshiftStep st * (k + 1 + 1) / 4294967295 ≤ k + 2 := by
      have hs : xorshiftStep st ≤ 4294967295 := by
        have := xorshiftStep_lt st
        omega
      calc xorshiftStep st * (k + 2) / 4294967295
          ≤ 4294967295 * (k + 2) / 4294967295 :=
            Nat.div_le_div_right (Nat.mul_le_mul_right _ hs)
        _ = k + 2 := by omega
    have hlen : (jsSwap ind (k + 1) (xorshiftStep st * (k + 1 + 1) / 4294967295)).length
        ≤ max ind.length (k + 3) := by
      unfold jsSwap
      rw [jsSet_length, jsSet_length]
      omega
    have hk : k < (jsSwap ind (k + 1) (xorshiftStep st * (k + 1 + 1) / 4294967295)).length := by
      unfold jsSwap
      rw [jsSet_length, jsSet_length]
      omega
    calc ((fisherYatesLoop ind st (k + 1)).1).length
        = ((fisherYatesLoop (jsSwap ind (k + 1) (xorshiftStep st * (k + 1 + 1) / 4294967295))
            (xorshiftStep st) k).1).length := rfl
      _ ≤ max (jsSwap ind (k + 1) (xorshiftStep st * (k + 1 + 1) / 4294967295)).length (k + 2) :=
          ih _ _ hk
      _ ≤ max ind.length (k + 1 + 2) := by omega

/-- C4.  The daily-quiz question selection is a pure function of
`(seed, source, count)`: it does not read the ambient environment (wall clock,
`Math.random`), so any two runs — in particular runs under different ambient
worlds — produce identical output sequences, namely the seeded
`pickDeterministic` result. -/
theorem C4_selection_deterministic {α : Type} (env1 env2 : JsAmbient) (seed : String)
    (src : List α) (count : Int) :
    selectQuestions env1 seed src count = selectQuestions env2 seed src count ∧
      selectQuestions env1 seed src count = pickDeterministic src count (seededHash seed) :=
  ⟨rfl, rfl⟩

/-- C9 (as stated, refuted at a concrete input).  The claim asserts that a
count ≤ 0 always yields an empty result; but `indices.slice(0, Math.min(n,
indices.length))` with a negative `n` uses JS negative-end semantics (count
from the end of the array), so `pickDeterministic(["a","b"], -1, rng)` returns
the first element of the shuffled pair, not `[]`. -/
theorem C9_counterexample :
    pickDeterministic ["a", "b"] (-1) (seededHash "x") ≠ ([] : List (Option String)) := by
  decide

/-- C9 (amended).  For every seed: selection from an empty source is empty;
selection with count = 0 is empty (a strictly negative count instead drops
trailing items from the shuffled sequence, see the counterexample); and when
the count exceeds the source length, every source item appears in the result,
in the seed-determined shuffled order. -/
theorem C9_selector_edge_cases {α : Type} (seed : String) :
    (∀ n : Int, pickDeterministic ([] : List α) n (seededHash seed) = []) ∧
      (∀ arr : List α, pickDeterministic arr 0 (seededHash seed) = []) ∧
      (∀ (arr : List α) (n : Int), (arr.length : Int) < n →
        ∀ x ∈ arr, some x ∈ pickDeterministic arr n (seededHash seed)) := by
  refine ⟨?_, ?_, ?_⟩
  · intro n
    simp [pickDeterministic, fisherYatesLoop, jsSlice]
  · intro arr
    unfold pickDeterministic
    have h0 : min (0 : Int)
        ((((fisherYatesLoop ((List.range arr.length).map some) (seededHash seed)
          (arr.length - 1)).1).length : Nat) : Int) = 0 :=
      min_eq_left (by positivity)
    simp only [h0, jsSlice]
    simp
  · intro arr n hn x hx
    obtain ⟨kx, hkx⟩ := List.mem_iff_get?.mp hx
    have hkxlt : kx < arr.length := by
      rcases List.get?_eq_some.mp hkx with ⟨h, _⟩
      exact h
    have hpos : 1 ≤ arr.length := Nat.lt_of_lt_of_le (Nat.zero_lt_of_lt hkxlt) le_rfl
    set ind := (fisherYatesLoop ((List.range arr.length).map some) (seededHash seed)
      (arr.length - 1)).1 with hind
    have hmem0 : some kx ∈ (List.range arr.length).map some := by
      simp [List.mem_map, List.mem_range, hkxlt]
    have hmem : some kx ∈ ind := fisherYatesLoop_mem _ _ _ _ hmem0
    have hlenbound : ind.length ≤ arr.length + 1 := by
      have hc : arr.length - 1 < ((List.range arr.length).map some).length := by
        simp
        omega
      have := fisherYatesLoop_length ((List.range arr.length).map some) (seededHash seed)
        (arr.length - 1) hc
      rw [← hind] at this
      simp at this
      omega
    have hminn : min n ((ind.length : Nat) : Int) = (ind.length : Int) := by
      apply min_eq_right
      omega
    show some x ∈ (jsSlice ind (min n ((ind.length : Nat) : Int))).map
      (fun oi => oi.bind (fun i => arr.get? i))
    rw [hminn]
    have hslice : jsSlice ind ((ind.length : Nat) : Int) = ind := by
      unfold jsSlice
      rw [if_neg (not_lt.mpr (Int.natCast_nonneg _))]
      simp
    rw [hslice]
    refine List.mem_map.mpr ⟨some kx, hmem, ?_⟩
    simpa using hkx

/-- Witness for C9: the amended theorem applied at concrete inputs. -/
theorem C9_selector_edge_cases_witness :
    pickDeterministic ([] : List Nat) 7 (seededHash "d") = [] ∧
      pickDeterministic ["a", "b"] 0 (seededHash "d") = [] ∧
      some "a" ∈ pickDeterministic ["a", "b"] 5 (seededHash "d") :=
  ⟨(C9_selector_edge_cases "d").1 7, (C9_selector_edge_cases "d").2.1 ["a", "b"],
    (C9_selector_edge_cases "d").2.2 ["a", "b"] 5 (by decide) "a" (by decide)⟩

end QuizMaster

namespace QuizMaster

/-! ## Tournament medal calculator (`computeMedals`)

Translated from the tournament utilities.  Durations are JS numbers that may
be non-finite (`isFinite` is consulted); a duration is `none` when non-finite.
`accuracy` is `denom > 0 ? (correct / (correct + wrong)) * 100 : 0`, which is
`NaN` when `correct + wrong = 0` but `skipped > 0`; the average duration is
`+Infinity` when `durations` is empty and `NaN` when no duration is finite.
`NaN`/`Infinity` outcomes are modelled as `none`, and every `>=`/`<=`
comparison the source performs against such a value is false, exactly as in
JS. -/

structure MedalInput where
  totalCorrect : Nat
  totalWrong : Nat
  totalSkipped : Nat
  durations : List (Option ℚ)
  roundsPlayed : Nat
  roundsTotal : Nat

/-- The `accuracy` local of `computeMedals` (`none` = `NaN`). -/
def medalAccuracy (inp : MedalInput) : Option ℚ :=
  let totalAnswered := inp.totalCorrect + inp.totalWrong
  let denom := totalAnswered + inp.totalSkipped
  if 0 < denom then
    if totalAnswered = 0 then none
    else some ((inp.totalCorrect : ℚ) / (totalAnswered : ℚ) * 100)
  else some 0

/-- The `avgMs` local of `computeMedals` (`none` = `+Infinity` or `NaN`):
`reduce` adds `isFinite(b) ? b : 0` and divides by the number of finite
entries. -/
def medalAvgMs (inp : MedalInput) : Option ℚ :=
  let finite := inp.durations.filterMap id
  if inp.durations.length = 0 then none
  else if finite.length = 0 then none
  else some (finite.sum / (finite.length : ℚ))

/-- JS `x >= t` where `x` may be `NaN`/`Infinity` (`none`): false then. -/
def jsGE (a : Option ℚ) (t : ℚ) : Bool :=
  match a with
  | none => false
  | some x => decide (t ≤ x)

/-- JS `x <= t` where `x` may be `NaN`/`Infinity` (`none`): false then. -/
def jsLE (a : Option ℚ) (t : ℚ) : Bool :=
  match a with
  | none => false
  | some x => decide (x ≤ t)

/-- `computeMedals`: Bronze for completing all rounds, Silver/Gold for
accuracy thresholds, Diamond for accuracy ≥ 95 and average duration ≤ 6000 ms,
pushed in that order. -/
def computeMedals (inp : MedalInput) : List String :=
  (if inp.roundsTotal ≤ inp.roundsPlayed ∧ 0 < inp.roundsTotal then ["Bronze"] else []) ++
    (if jsGE (medalAccuracy inp) 70 then ["Silver"] else []) ++
      (if jsGE (medalAccuracy inp) 85 then ["Gold"] else []) ++
        (if jsGE (medalAccuracy inp) 95 && jsLE (medalAvgMs inp) 6000 then ["Diamond"] else [])

/-- The claim's accuracy: `correct / (correct + wrong)` (skipped excluded),
as a percentage.  (With `ℚ`'s zero-denominator convention this is 0 when
nothing was answered, and every threshold comparison is then false — the same
outcome as the source's 0-or-NaN accuracy.) -/
def claimAccuracy (inp : MedalInput) : ℚ :=
  100 * (inp.totalCorrect : ℚ) / ((inp.totalCorrect : ℚ) + (inp.totalWrong : ℚ))

/-- The claim's mean duration over the finite entries. -/
def claimFiniteDurations (inp : MedalInput) : List ℚ :=
  inp.durations.filterMap id

theorem jsGE_medalAccuracy (inp : MedalInput) (t : ℚ) (ht : 0 < t) :
    jsGE (medalAccuracy inp) t = true ↔ t ≤ claimAccuracy inp := by
  unfold jsGE medalAccuracy claimAccuracy
  by_cases hd : 0 < inp.totalCorrect + inp.totalWrong + inp.totalSkipped
  · by_cases ha : inp.totalCorrect + inp.totalWrong = 0
    · obtain ⟨hc, hw⟩ := Nat.add_eq_zero.mp ha
      rw [if_pos hd, if_pos ha, hc, hw]
      norm_num
      linarith
    · rw [if_pos hd, if_neg ha]
      have hcast : ((inp.totalCorrect + inp.totalWrong : Nat) : ℚ)
          = (inp.totalCorrect : ℚ) + (inp.totalWrong : ℚ) := by push_cast; ring
      rw [hcast]
      have hr : (inp.totalCorrect : ℚ) / ((inp.totalCorrect : ℚ) + (inp.totalWrong : ℚ)) * 100
          = 100 * (inp.totalCorrect : ℚ) / ((inp.totalCorrect : ℚ) + (inp.totalWrong : ℚ)) := by
        ring
      simp [hr]
  · have hc : inp.totalCorrect = 0 := by omega
    have hw : inp.totalWrong = 0 := by omega
    rw [if_neg hd, hc, hw]
    norm_num

theorem jsLE_medalAvgMs (inp : MedalInput) (t : ℚ) :
    jsLE (medalAvgMs inp) t = true ↔
      (claimFiniteDurations inp ≠ [] ∧
        (claimFiniteDurations inp).sum / ((claimFiniteDurations inp).length : ℚ) ≤ t) := by
  unfold jsLE medalAvgMs claimFiniteDurations
  by_cases hemp : inp.durations.length = 0
  · have : inp.durations = [] := List.length_eq_zero.mp hemp
    simp [this]
  · rw [if_neg hemp]
    by_cases hfin : (inp.durations.filterMap id).length = 0
    · have : inp.durations.filterMap id = [] := List.length_eq_zero.mp hfin
      simp [hfin, this]
    · have : inp.durations.filterMap id ≠ [] := by
        intro h
        exact hfin (by simp [h])
      simp [if_neg hfin, this]

theorem mem_singleton_ite (c : Prop) [Decidable c] (a b : String) :
    (a ∈ if c then [b] else []) ↔ c ∧ a = b := by
  split_ifs with h <;> simp [h]

theorem filterMap_id_replicate_some (n : Nat) (a : ℚ) :
    (List.replicate n (some a)).filterMap id = List.replicate n a := by
  induction n with
  | zero => rfl
  | succ n ih => simp [List.replicate_succ, ih]

/-- C6.  The medal rules of `computeMedals`: with accuracy = correct /
(correct + wrong) (skipped excluded), Bronze is awarded iff all rounds were
completed (and there was at least one round), Silver iff accuracy ≥ 70%, Gold
iff accuracy ≥ 85%, and Diamond iff accuracy ≥ 95% and the mean of the finite
per-question durations is ≤ 6000 ms inclusive (no finite durations: no
Diamond).  Medals are additive: at correct=95, wrong=5, skipped=0 and 100
durations of exactly 6000 ms all four are present; at 6001 ms Diamond is
withheld while Gold remains. -/
theorem C6_tournament_medals (inp : MedalInput) :
    (("Bronze" ∈ computeMedals inp) ↔
        inp.roundsTotal ≤ inp.roundsPlayed ∧ 0 < inp.roundsTotal) ∧
      (("Silver" ∈ computeMedals inp) ↔ 70 ≤ claimAccuracy inp) ∧
      (("Gold" ∈ computeMedals inp) ↔ 85 ≤ claimAccuracy inp) ∧
      (("Diamond" ∈ computeMedals inp) ↔
        (95 ≤ claimAccuracy inp ∧ claimFiniteDurations inp ≠ [] ∧
          (claimFiniteDurations inp).sum / ((claimFiniteDurations inp).length : ℚ) ≤ 6000)) ∧
      "Diamond" ∈ computeMedals ⟨95, 5, 0, List.replicate 100 (some 6000), 1, 1⟩ ∧
      "Diamond" ∉ computeMedals ⟨95, 5, 0, List.replicate 100 (some 6001), 1, 1⟩ ∧
      "Gold" ∈ computeMedals ⟨95, 5, 0, List.replicate 100 (some 6001), 1, 1⟩ := by
  have hB : ∀ i : MedalInput, ("Bronze" ∈ computeMedals i) ↔
      i.roundsTotal ≤ i.roundsPlayed ∧ 0 < i.roundsTotal := by
    intro i
    simp [computeMedals, mem_singleton_ite]
  have hS : ∀ i : MedalInput, ("Silver" ∈ computeMedals i) ↔ 70 ≤ claimAccuracy i := by
    intro i
    rw [← jsGE_medalAccuracy i 70 (by norm_num)]
    simp [computeMedals, mem_singleton_ite]
  have hG : ∀ i : MedalInput, ("Gold" ∈ computeMedals i) ↔ 85 ≤ claimAccuracy i := by
    intro i
    rw [← jsGE_medalAccuracy i 85 (by norm_num)]
    simp [computeMedals, mem_singleton_ite]
  have hD : ∀ i : MedalInput, ("Diamond" ∈ computeMedals i) ↔
      (95 ≤ claimAccuracy i ∧ claimFiniteDurations i ≠ [] ∧
        (claimFiniteDurations i).sum / ((claimFiniteDurations i).length : ℚ) ≤ 6000) := by
    intro i
    rw [← jsGE_medalAccuracy i 95 (by norm_num), ← jsLE_medalAvgMs i 6000]
    simp [computeMedals, mem_singleton_ite, and_assoc]
  refine ⟨hB inp, hS inp, hG inp, hD inp, ?_, ?_, ?_⟩
  · rw [hD _]
    refine ⟨by norm_num [claimAccuracy], ?_, ?_⟩
    · simp [claimFiniteDurations, filterMap_id_replicate_some]
    · simp [claimFiniteDurations, filterMap_id_replicate_some, List.sum_replicate]
      norm_num
  · rw [hD _]
    simp only [claimFiniteDurations, filterMap_id_replicate_some, List.sum_replicate,
      List.length_replicate]
    norm_num [claimAccuracy]
  · rw [hG _]
    norm_num [claimAccuracy]

end QuizMaster

namespace QuizMaster

/-! ## Daily streak rule (`calcStreakOnCompletion`)

Translated from the daily quiz store.  The source receives the completion
date as a `YYYY-MM-DD` string (always produced by `getTodayKey()`), computes
"yesterday" with JS local-calendar `Date` arithmetic
(`setDate(getDate() - 1)`), formats it back with zero-padded month and day,
and compares date-key strings.  We carry the calendar date the key denotes as
an explicit `Ymd` (proleptic Gregorian, which is what `Date` implements) and
keep the string formatting and string comparisons of the source.
`storedStreak` is `readPersist().streakCount` (the same stored value is read
in both branches); JS `x || d` on a number is `d` exactly when `x` is falsy,
i.e. 0 here. -/

structure Ymd where
  year : Nat
  month : Nat
  day : Nat
deriving DecidableEq, Repr

def isLeapYear (y : Nat) : Bool :=
  (y % 4 = 0 && y % 100 != 0) || y % 400 = 0

def daysInMonth (y m : Nat) : Nat :=
  if m = 2 then (if isLeapYear y then 29 else 28)
  else if m = 4 ∨ m = 6 ∨ m = 9 ∨ m = 11 then 30
  else 31

/-- The previous calendar day, as computed by `d.setDate(d.getDate() - 1)`. -/
def prevDay (d : Ymd) : Ymd :=
  if 1 < d.day then { d with day := d.day - 1 }
  else if 1 < d.month then { year := d.year, month := d.month - 1, day := daysInMonth d.year (d.month - 1) }
  else { year := d.year - 1, month := 12, day := 31 }

/-- `String(n).padStart(2, '0')`. -/
def pad2 (n : Nat) : String :=
  if n < 10 then "0" ++ toString n else toString n

/-- The ``${y}-${mm}-${dd}`` date-key format of `getTodayKey` and of the
yesterday-key computation. -/
def fmtYmd (d : Ymd) : String :=
  toString d.year ++ "-" ++ pad2 d.month ++ "-" ++ pad2 d.day

/-- `calcStreakOnCompletion(dateKey, lastCompleted)`: 1 when there is no prior
completion; the stored streak (0 normalized to 1) when the prior completion is
today's key; stored streak (0 or other falsy normalized to 0) + 1 when it is
exactly yesterday's key; otherwise 1. -/
def calcStreakOnCompletion (dateKey : Ymd) (lastCompleted : Option String)
    (storedStreak : Int) : Int :=
  match lastCompleted with
  | none => 1
  | some lc =>
    let yKey := fmtYmd (prevDay dateKey)
    if lc = fmtYmd dateKey then (if storedStreak ≠ 0 then storedStreak else 1)
    else if lc = yKey then (if storedStreak ≠ 0 then storedStreak else 0) + 1
    else 1

/-- Any streak value the completion path stores is at least 1 (so a state with
a recorded completion always carries a stored streak ≥ 1, justifying the
hypothesis of the same-day clause of C7). -/
theorem calcStreakOnCompletion_pos (dateKey : Ymd) (lastCompleted : Option String)
    (storedStreak : Int) (h : 0 ≤ storedStreak) :
    1 ≤ calcStreakOnCompletion dateKey lastCompleted storedStreak := by
  unfold calcStreakOnCompletion
  cases lastCompleted with
  | none => norm_num
  | some lc =>
    dsimp only
    split_ifs <;> omega

/-- C7.  The daily streak rule: on completion at date `D`, the streak becomes
`priorStreak + 1` when the last completed key is exactly yesterday's key; it
is 1 when there is no prior completion, and 1 for any last-completed key other
than today's and yesterday's (which covers every date earlier than yesterday);
and it stays unchanged when the last completed key is already today's, for any
non-zero stored streak (every streak the code stores is ≥ 1, see
`calcStreakOnCompletion_pos`).  The yesterday-increment clause needs the two
keys to differ, which holds for every real calendar date. -/
theorem C7_daily_streak (D : Ymd) (s : Int) :
    calcStreakOnCompletion D none s = 1 ∧
      (fmtYmd (prevDay D) ≠ fmtYmd D →
        calcStreakOnCompletion D (some (fmtYmd (prevDay D))) s = s + 1) ∧
      (∀ lc : String, lc ≠ fmtYmd D → lc ≠ fmtYmd (prevDay D) →
        calcStreakOnCompletion D (some lc) s = 1) ∧
      (s ≠ 0 → calcStreakOnCompletion D (some (fmtYmd D)) s = s) := by
  refine ⟨rfl, ?_, ?_, ?_⟩
  · intro hne
    unfold calcStreakOnCompletion
    dsimp only
    rw [if_neg hne, if_pos rfl]
    split_ifs with h
    · rfl
    · omega
  · intro lc h1 h2
    unfold calcStreakOnCompletion
    dsimp only
    rw [if_neg h1, if_neg h2]
  · intro hs
    unfold calcStreakOnCompletion
    dsimp only
    rw [if_pos rfl, if_pos hs]

/-- Witness for C7 at a concrete date (2026-10-11, prior streak 4): the prior
completion on 2026-10-10 increments to 5, a gap (2026-10-09) resets to 1, a
same-day completion keeps 4, and no prior completion gives 1. -/
theorem C7_daily_streak_witness :
    calcStreakOnCompletion ⟨2026, 10, 11⟩ none 4 = 1 ∧
      calcStreakOnCompletion ⟨2026, 10, 11⟩ (some "2026-10-10") 4 = 5 ∧
      calcStreakOnCompletion ⟨2026, 10, 11⟩ (some "2026-10-09") 4 = 1 ∧
      calcStreakOnCompletion ⟨2026, 10, 11⟩ (some "2026-10-11") 4 = 4 := by
  have h := C7_daily_streak ⟨2026, 10, 11⟩ 4
  refine ⟨h.1, ?_, ?_, h.2.2.2 (by decide)⟩
  · have h2 := h.2.1 (by decide)
    have hp : fmtYmd (prevDay ⟨2026, 10, 11⟩) = "2026-10-10" := by decide
    rw [hp] at h2
    exact h2
  · exact h.2.2.1 "2026-10-09" (by decide) (by decide)

end QuizMaster

namespace QuizMaster

/-! ## Category unlock evaluator (`useCategoryUnlockStore`)

Translated from the category-unlock store (QuizHeader.vue bundle).  The
persistent schema keeps an `unlocked` boolean per category, a prerequisite
list per category, a threshold percentage, and the `dailyCountsForUnlocks`
flag.  `evaluateUnlocksFromScore` first marks the played category unlocked
when the accuracy meets the threshold, then makes one pass over all
categories in a fixed key order, unlocking (against the state mutated so far)
every still-locked category whose prerequisites are all unlocked, collecting
the newly unlocked ones.  `persist()` only mirrors the state to storage. -/

inductive Cat
  | gk
  | sports
  | movies
  | science
  | history
  | geography
deriving DecidableEq, Repr

inductive PlayMode
  | normal
  | daily
  | multiplayer
deriving DecidableEq, Repr

structure UnlockState where
  unlocked : Cat → Bool
  prerequisites : Cat → List Cat
  thresholdPercent : ℚ
  dailyCountsForUnlocks : Bool

/-- `state.value.unlocked[category] = true`. -/
def setUnlocked (u : Cat → Bool) (c : Cat) : Cat → Bool :=
  fun k => if k = c then true else u k

/-- `allPrereqsMet(unlocked, prereqs)`. -/
def allPrereqsMet (unlocked : Cat → Bool) (prereqs : List Cat) : Bool :=
  prereqs.all (fun p => unlocked p)

/-- The key order of the unlock pass. -/
def catKeys : List Cat :=
  [Cat.gk, Cat.sports, Cat.movies, Cat.science, Cat.history, Cat.geography]

/-- One iteration of the `for (const k of keys)` loop: skip already-unlocked
categories, otherwise unlock `k` when its prerequisites are all met and record
it in `newly`. -/
def unlockStep (acc : List Cat × UnlockState) (k : Cat) : List Cat × UnlockState :=
  if acc.2.unlocked k then acc
  else if allPrereqsMet acc.2.unlocked (acc.2.prerequisites k) then
    (acc.1 ++ [k], { acc.2 with unlocked := setUnlocked acc.2.unlocked k })
  else acc

/-- `evaluateUnlocksFromScore({category, accuracyPercent, mode})`, returning
the `newly` list and the updated state. -/
def evaluateUnlocksFromScore (st : UnlockState) (category : Cat) (accuracyPercent : ℚ)
    (mode : PlayMode) : List Cat × UnlockState :=
  if mode = PlayMode.daily ∧ st.dailyCountsForUnlocks = false then ([], st)
  else
    let st1 :=
      if st.thresholdPercent ≤ accuracyPercent then
        { st with unlocked := setUnlocked st.unlocked category }
      else st
    catKeys.foldl unlockStep ([], st1)

/-- `isUnlocked(category)` (the `!!` coercion is the identity on booleans). -/
def isUnlocked (st : UnlockState) (category : Cat) : Bool :=
  st.unlocked category

/-- Default prerequisite graph of the source. -/
def defaultPrereqs : Cat → List Cat
  | Cat.gk => []
  | Cat.sports => [Cat.gk]
  | Cat.movies => [Cat.gk]
  | Cat.science => [Cat.gk]
  | Cat.history => [Cat.science]
  | Cat.geography => [Cat.history]

/-- Default unlocked map of the source: only General Knowledge. -/
def defaultUnlocked : Cat → Bool
  | Cat.gk => true
  | _ => false

theorem unlockStep_mono (l : List Cat) (acc : List Cat × UnlockState) (k : Cat)
    (h : acc.2.unlocked k = true) : ((l.foldl unlockStep acc).2).unlocked k = true := by
  induction l generalizing acc with
  | nil => simpa using h
  | cons c t ih =>
    rw [List.foldl_cons]
    apply ih
    unfold unlockStep
    split_ifs with h1 h2
    · exact h
    · simp only [setUnlocked]
      split_ifs with hk
      · rfl
      · exact h
    · exact h

/-- C8.  Unlock monotonicity: once a category is unlocked, no call to
`evaluateUnlocksFromScore` — with any played category, any accuracy
(including 0) and any mode — ever sets it back to false; the evaluator only
ever turns `unlocked` entries to true. -/
theorem C8_unlock_monotonic (st : UnlockState) (category : Cat) (accuracyPercent : ℚ)
    (mode : PlayMode) (k : Cat) (h : isUnlocked st k = true) :
    isUnlocked (evaluateUnlocksFromScore st category accuracyPercent mode).2 k = true := by
  unfold isUnlocked at h ⊢
  unfold evaluateUnlocksFromScore
  split_ifs with h1 h2
  · exact h
  · apply unlockStep_mono
    simp only [setUnlocked]
    split_ifs with hk
    · rfl
    · exact h
  · exact unlockStep_mono _ _ _ h

/-- Witness for C8: with science unlocked, a later evaluation of a
General Knowledge play at accuracy 0 in normal mode leaves science unlocked. -/
theorem C8_unlock_monotonic_witness :
    isUnlocked
      (evaluateUnlocksFromScore
        { unlocked := setUnlocked defaultUnlocked Cat.science,
          prerequisites := defaultPrereqs, thresholdPercent := 80,
          dailyCountsForUnlocks := false }
        Cat.gk 0 PlayMode.normal).2 Cat.science = true :=
  C8_unlock_monotonic _ Cat.gk 0 PlayMode.normal Cat.science rfl

end QuizMaster

namespace QuizMaster

/-! ## Standard quiz session store (`useQuizStore`)

Translated from the quiz store.  The store's refs form the runtime state; the
`localStorage` slot under the session key is `storage`.  `Date.now()` is the
explicit `ts` argument of each state-changing operation.  A question id is
`string | number`; JS object keys coerce numbers to strings, so ids are
represented by their string form throughout (ids of the built-in pools are
strings already).

`safeReadSession` on this typed representation: the JSON shape checks
(`typeof`/`Array.isArray`) are identically true, the per-question filter and
rebuild map are the identity (the legacy `detail`/`clue` alias keys of old
snapshots have no typed counterpart and the `??` defaults for absent optional
fields never fire on a fully-populated record), while the version gate, the
`!obj.selectedCategory` truthiness gate (an empty string is falsy), the
non-empty-questions gate and the numeric clamps are kept exactly. -/

inductive Ans
  | answered (index : Nat)
  | skipped
deriving DecidableEq, Repr

structure QuizQuestion where
  id : String
  question : String
  options : List String
  answerIndex : Nat
  explanation : Option String
  src : Option String
  referenceUrl : Option String
  hint : Option String
deriving DecidableEq, Repr

structure LifelineUsage where
  fiftyFiftyUsed : Bool
  skipUsed : Bool
  extraTimeUsed : Bool
  askHintUsed : Bool
deriving DecidableEq, Repr

def LifelineUsage.initial : LifelineUsage :=
  { fiftyFiftyUsed := false, skipUsed := false, extraTimeUsed := false, askHintUsed := false }

structure TimerState where
  remaining : Option Int
  extraGranted : Bool
deriving DecidableEq, Repr

structure SessionSchema where
  version : Nat
  selectedCategory : String
  questions : List QuizQuestion
  currentIndex : Int
  selectedAnswers : List (String × Ans)
  score : Int
  startedAt : Nat
  updatedAt : Nat
  lifelines : LifelineUsage
  fiftyFiftyHidden : List (String × List Nat)
  hintShown : List (String × Bool)
  timers : List (String × Option Int)
deriving DecidableEq, Repr

/-- `safeReadSession()`: version gate (1, 2 or the current 3), the
`!obj.selectedCategory` truthiness check of the structural validation (an
empty-string category is falsy and rejects the snapshot), non-empty question
list, numeric clamps on `currentIndex` and `score`; any failure yields `none`
(absent). -/
def safeReadSession (stored : Option SessionSchema) : Option SessionSchema :=
  match stored with
  | none => none
  | some obj =>
    if obj.version ≠ 1 ∧ obj.version ≠ 2 ∧ obj.version ≠ 3 then none
    else if obj.selectedCategory = "" then none
    else if obj.questions.isEmpty then none
    else
      some { obj with
        version := 3
        currentIndex := max 0 (min obj.currentIndex ((obj.questions.length : Int) - 1))
        score := max 0 obj.score }

structure QuizRuntime where
  questions : List QuizQuestion
  currentIndex : Int
  score : Int
  selectedIndex : Option Nat
  hasSubmitted : Bool
  loading : Bool
  error : Option String
  selectedCategory : String
  startedAt : Option Nat
  updatedAt : Option Nat
  selectedAnswers : List (String × Ans)
  lifelines : LifelineUsage
  fiftyFiftyHidden : List (String × List Nat)
  hintShown : List (String × Bool)
  timers : List (String × Option Int)
  timerState : TimerState
deriving DecidableEq, Repr

/-- The store's initial refs. -/
def QuizRuntime.initial : QuizRuntime :=
  { questions := [], currentIndex := 0, score := 0, selectedIndex := none,
    hasSubmitted := false, loading := false, error := none, selectedCategory := "gk",
    startedAt := none, updatedAt := none, selectedAnswers := [],
    lifelines := LifelineUsage.initial, fiftyFiftyHidden := [], hintShown := [],
    timers := [], timerState := { remaining := none, extraGranted := false } }

/-- `l[i]` for a JS number index on a plain array (no holes): out-of-range or
negative yields `undefined`. -/
def jsIndex (l : List α) (i : Int) : Option α :=
  if 0 ≤ i then l.get? i.toNat else none

/-- The `current` computed ref: `questions[currentIndex] || null`. -/
def QuizRuntime.current (rt : QuizRuntime) : Option QuizQuestion :=
  jsIndex rt.questions rt.currentIndex

structure QuizWorld where
  rt : QuizRuntime
  storage : Option SessionSchema
deriving DecidableEq, Repr

/-- `buildSession()` minus its in-place timer write (hoisted into
`persistSession` below, which mutates `timers` and then snapshots). -/
def QuizRuntime.buildSession (rt : QuizRuntime) (ts : Nat) : Option SessionSchema :=
  if rt.questions.isEmpty then none
  else
    some
      { version := 3, selectedCategory := rt.selectedCategory, questions := rt.questions,
        currentIndex := rt.currentIndex, selectedAnswers := rt.selectedAnswers,
        score := rt.score, startedAt := rt.startedAt.getD ts, updatedAt := rt.updatedAt.getD ts,
        lifelines := rt.lifelines, fiftyFiftyHidden := rt.fiftyFiftyHidden,
        hintShown := rt.hintShown, timers := rt.timers }

/-- `persistSession()`: `buildSession` first writes the current question's
remaining timer into `timers` (an in-place write, visible in the runtime),
then the snapshot is stored (a `null` snapshot deletes the stored value). -/
def QuizWorld.persistSession (w : QuizWorld) (ts : Nat) : QuizWorld :=
  let timers' :=
    match w.rt.current, w.rt.timerState.remaining with
    | some cur, some r => recSet w.rt.timers cur.id (some r)
    | _, _ => w.rt.timers
  let rt' := { w.rt with timers := timers' }
  { rt := rt', storage := rt'.buildSession ts }

/-- `touchAndPersist()`. -/
def QuizWorld.touchAndPersist (w : QuizWorld) (ts : Nat) : QuizWorld :=
  QuizWorld.persistSession { w with rt := { w.rt with updatedAt := some ts } } ts

/-- `selectOption(index)`. -/
def QuizWorld.selectOption (w : QuizWorld) (index : Nat) (ts : Nat) : QuizWorld :=
  if w.rt.hasSubmitted then w
  else QuizWorld.touchAndPersist { w with rt := { w.rt with selectedIndex := some index } } ts

/-- `submitAnswer()`: returns whether the selection was correct and the new
world. -/
def QuizWorld.submitAnswer (w : QuizWorld) (ts : Nat) : Bool × QuizWorld :=
  match w.rt.selectedIndex, w.rt.current with
  | some sel, some cur =>
    let rt' := { w.rt with
      hasSubmitted := true
      score := w.rt.score + (if sel = cur.answerIndex then 1 else 0)
      selectedAnswers := recSet w.rt.selectedAnswers cur.id (Ans.answered sel) }
    (decide (sel = cur.answerIndex), QuizWorld.touchAndPersist { w with rt := rt' } ts)
  | _, _ => (false, w)

/-- `hasSavedSession()`. -/
def QuizWorld.hasSavedSession (w : QuizWorld) : Bool :=
  (safeReadSession w.storage).isSome

/-- `resumeIfAvailable()`: rehydrates every ref from the validated snapshot,
recomputes `selectedIndex` from `selectedAnswers` for the current question
(`'SKIPPED'` and absent give `null`), restores the current question's timer,
and always clears `hasSubmitted`. -/
def QuizWorld.resumeIfAvailable (w : QuizWorld) : Bool × QuizWorld :=
  match safeReadSession w.storage with
  | none => (false, w)
  | some saved =>
    let curId := (jsIndex saved.questions saved.currentIndex).map (fun q => q.id)
    let prev :=
      match curId with
      | some cid => recGet saved.selectedAnswers cid
      | none => none
    let selectedIndex :=
      match prev with
      | some (Ans.answered n) => some n
      | _ => none
    let timerRemaining :=
      match curId with
      | some cid => (recGet saved.timers cid).join
      | none => none
    let rt' : QuizRuntime :=
      { questions := saved.questions, currentIndex := saved.currentIndex,
        score := saved.score, selectedIndex := selectedIndex, hasSubmitted := false,
        loading := false, error := none, selectedCategory := saved.selectedCategory,
        startedAt := some saved.startedAt, updatedAt := some saved.updatedAt,
        selectedAnswers := saved.selectedAnswers, lifelines := saved.lifelines,
        fiftyFiftyHidden := saved.fiftyFiftyHidden, hintShown := saved.hintShown,
        timers := saved.timers,
        timerState := { remaining := timerRemaining, extraGranted := false } }
    (true, { w with rt := rt' })

structure FFResult where
  ok : Bool
  hidden : List Nat
deriving DecidableEq, Repr

/-- `useFiftyFifty()` of the standard store.  `shuffle` stands for the
engine-defined result of `[...pool].sort(() => Math.random() - 0.5)`
(one evaluation of that expression); the theorems below constrain it to
permute its input, which JS array sort guarantees. -/
def QuizWorld.useFiftyFifty (w : QuizWorld) (shuffle : List Nat → List Nat) (ts : Nat) :
    FFResult × QuizWorld :=
  match w.rt.current with
  | none => ({ ok := false, hidden := [] }, w)
  | some cur =>
    if w.rt.lifelines.fiftyFiftyUsed then ({ ok := false, hidden := [] }, w)
    else
      let already := (recGet w.rt.fiftyFiftyHidden cur.id).getD []
      if already.isEmpty = false then ({ ok := true, hidden := already }, w)
      else
        let wrongs := (List.range cur.options.length).filter (fun i => i ≠ cur.answerIndex)
        let notSelected := wrongs.filter (fun i => w.rt.selectedIndex ≠ some i)
        let pool := if 2 ≤ notSelected.length then notSelected else wrongs
        let hidden := (shuffle pool).take (min 2 pool.length)
        let rt' := { w.rt with
          fiftyFiftyHidden := recSet w.rt.fiftyFiftyHidden cur.id hidden
          lifelines := { w.rt.lifelines with fiftyFiftyUsed := true } }
        ({ ok := true, hidden := hidden }, QuizWorld.touchAndPersist { w with rt := rt' } ts)

/-- A freshly active standard session: `resetRuntime()`, `setCategory(cat)`
and a `loadQuestions()` that resolved to `qs` (fallback path), which
initialises the session timestamps and persists the first snapshot. -/
def freshActiveQuizWorld (qs : List QuizQuestion) (cat : String) (ts : Nat) : QuizWorld :=
  QuizWorld.persistSession
    { rt := { QuizRuntime.initial with
        questions := qs, selectedCategory := cat,
        startedAt := some ts, updatedAt := some ts },
      storage := none } ts

/-! ## Daily quiz store (`useDailyQuizStore`) — the parts the claims need -/

structure DailySession where
  version : Nat
  dailyDate : String
  dailySeed : String
  dailyCategory : Option String
  questions : List QuizQuestion
  currentIndex : Int
  selectedAnswers : List (String × Ans)
  score : Int
  startedAt : Nat
  updatedAt : Nat
  lifelines : LifelineUsage
  fiftyFiftyHidden : List (String × List Nat)
  hintShown : List (String × Bool)
deriving DecidableEq, Repr

structure DailyRuntime where
  questions : List QuizQuestion
  currentIndex : Int
  score : Int
  selectedIndex : Option Nat
  hasSubmitted : Bool
  dailyDate : String
  dailySeed : String
  dailyCategory : Option String
  selectedAnswers : List (String × Ans)
  lifelines : LifelineUsage
  fiftyFiftyHidden : List (String × List Nat)
  hintShown : List (String × Bool)
deriving DecidableEq, Repr

def DailyRuntime.current (rt : DailyRuntime) : Option QuizQuestion :=
  jsIndex rt.questions rt.currentIndex

structure DailyWorld where
  rt : DailyRuntime
  storage : Option DailySession
deriving DecidableEq, Repr

/-- Daily `persistSession()` via `buildSession()` (both timestamps are taken
from `Date.now()` at build time). -/
def DailyWorld.persistSession (w : DailyWorld) (ts : Nat) : DailyWorld :=
  let s : Option DailySession :=
    if w.rt.questions.isEmpty then none
    else
      some
        { version := 2, dailyDate := w.rt.dailyDate, dailySeed := w.rt.dailySeed,
          dailyCategory := w.rt.dailyCategory, questions := w.rt.questions,
          currentIndex := w.rt.currentIndex, selectedAnswers := w.rt.selectedAnswers,
          score := w.rt.score, startedAt := ts, updatedAt := ts,
          lifelines := w.rt.lifelines, fiftyFiftyHidden := w.rt.fiftyFiftyHidden,
          hintShown := w.rt.hintShown }
  { w with storage := s }

/-- Daily `useFiftyFifty()`: all wrong options form the pool, shuffled by a
sort whose comparator consumes the xorshift32 stream seeded from
``${dailySeed}:${qid}``; `shuffle` stands for the engine-defined result of
that sort as a function of the composite seed string and the pool, and the
theorems below constrain it to permute its input. -/
def DailyWorld.useFiftyFifty (w : DailyWorld) (shuffle : String → List Nat → List Nat)
    (ts : Nat) : FFResult × DailyWorld :=
  match w.rt.current with
  | none => ({ ok := false, hidden := [] }, w)
  | some cur =>
    if w.rt.lifelines.fiftyFiftyUsed then ({ ok := false, hidden := [] }, w)
    else
      let wrongs := (List.range cur.options.length).filter (fun i => i ≠ cur.answerIndex)
      let pool := wrongs
      let shuffled := shuffle (w.rt.dailySeed ++ ":" ++ cur.id) pool
      let hidden := shuffled.take (min 2 pool.length)
      let rt' := { w.rt with
        fiftyFiftyHidden := recSet w.rt.fiftyFiftyHidden cur.id hidden
        lifelines := { w.rt.lifelines with fiftyFiftyUsed := true } }
      ({ ok := true, hidden := hidden }, DailyWorld.persistSession { w with rt := rt' } ts)

/-! ### Concrete inputs for counterexamples and witnesses -/

def exQ1 : QuizQuestion :=
  { id := "q1", question := "Q1", options := ["a", "b", "c"], answerIndex := 1,
    explanation := none, src := none, referenceUrl := none, hint := none }

def exQ2 : QuizQuestion :=
  { id := "q2", question := "Q2", options := ["d", "e", "f"], answerIndex := 0,
    explanation := none, src := none, referenceUrl := none, hint := none }

def exQ3 : QuizQuestion :=
  { id := "q3", question := "Q3", options := ["g", "h", "i"], answerIndex := 2,
    explanation := none, src := none, referenceUrl := none, hint := none }

def exDailyWorld : DailyWorld :=
  { rt :=
      { questions := [exQ1], currentIndex := 0, score := 0, selectedIndex := none,
        hasSubmitted := false, dailyDate := "2026-10-11", dailySeed := "2026-10-11::any",
        dailyCategory := none, selectedAnswers := [], lifelines := LifelineUsage.initial,
        fiftyFiftyHidden := [], hintShown := [] },
    storage := none }

theorem recGet_cons_ne (p : String × β) (l : List (String × β)) (k : String)
    (hp : ¬ p.1 = k) : recGet (p :: l) k = recGet l k := by
  simp [recGet, List.find?_cons, hp]

theorem recGet_recSet_self (m : List (String × β)) (k : String) (v : β) :
    recGet (recSet m k v) k = some v := by
  induction m with
  | nil => simp [recGet, recSet]
  | cons p t ih =>
    by_cases hp : p.1 = k
    · simp [recSet, recGet, List.any_cons, hp]
    · by_cases ht : t.any (fun q => q.1 = k)
      · have h1 : recSet (p :: t) k v = p :: recSet t k v := by
          simp [recSet, List.any_cons, hp, ht]
        rw [h1, recGet_cons_ne p _ k hp]
        exact ih
      · have h1 : recSet (p :: t) k v = p :: recSet t k v := by
          simp [recSet, List.any_cons, hp, ht]
        rw [h1, recGet_cons_ne p _ k hp]
        exact ih

/-- C3.  Version rejection: a stored quiz-session snapshot whose version is
not one of the accepted set {3, 2, 1} makes `hasSavedSession()` false and
`resumeIfAvailable()` return false while leaving the whole world — in
particular the initial empty runtime — unchanged; and a snapshot with an
accepted version that passes the structural checks (a truthy, i.e. non-empty,
category and a non-empty question list) is recognised as saved. -/
theorem C3_version_rejection (s : SessionSchema)
    (hv : s.version ≠ 1 ∧ s.version ≠ 2 ∧ s.version ≠ 3) :
    QuizWorld.hasSavedSession { rt := QuizRuntime.initial, storage := some s } = false ∧
      QuizWorld.resumeIfAvailable { rt := QuizRuntime.initial, storage := some s }
        = (false, { rt := QuizRuntime.initial, storage := some s }) ∧
      (∀ s' : SessionSchema, (s'.version = 1 ∨ s'.version = 2 ∨ s'.version = 3) →
        s'.selectedCategory ≠ "" → s'.questions ≠ [] →
        QuizWorld.hasSavedSession { rt := QuizRuntime.initial, storage := some s' } = true) := by
  have hnone : safeReadSession (some s) = none := by
    simp [safeReadSession, hv.1, hv.2.1, hv.2.2]
  refine ⟨?_, ?_, ?_⟩
  · simp [QuizWorld.hasSavedSession, hnone]
  · simp [QuizWorld.resumeIfAvailable, hnone]
  · intro s' hv' hc hq
    have : ¬(s'.version ≠ 1 ∧ s'.version ≠ 2 ∧ s'.version ≠ 3) := by tauto
    simp [QuizWorld.hasSavedSession, safeReadSession, this, hc, List.isEmpty_iff, hq]

/-- Witness for C3: a stored snapshot with `version: 999` is rejected, one
with the current version 3 is accepted. -/
theorem C3_version_rejection_witness :
    QuizWorld.hasSavedSession
        { rt := QuizRuntime.initial,
          storage :=
            some
              { version := 999, selectedCategory := "gk", questions := [exQ1],
                currentIndex := 0, selectedAnswers := [], score := 0, startedAt := 0,
                updatedAt := 0, lifelines := LifelineUsage.initial, fiftyFiftyHidden := [],
                hintShown := [], timers := [] } } = false ∧
      QuizWorld.hasSavedSession
        { rt := QuizRuntime.initial,
          storage :=
            some
              { version := 3, selectedCategory := "gk", questions := [exQ1],
                currentIndex := 0, selectedAnswers := [], score := 0, startedAt := 0,
                updatedAt := 0, lifelines := LifelineUsage.initial, fiftyFiftyHidden := [],
                hintShown := [], timers := [] } } = true := by
  constructor
  · exact (C3_version_rejection _ (by norm_num)).1
  · exact (C3_version_rejection
      { version := 999, selectedCategory := "gk", questions := [exQ1], currentIndex := 0,
        selectedAnswers := [], score := 0, startedAt := 0, updatedAt := 0,
        lifelines := LifelineUsage.initial, fiftyFiftyHidden := [], hintShown := [],
        timers := [] } (by norm_num)).2.2 _ (by norm_num) (by decide) (by simp)

/-- C2 (as stated, refuted at a concrete input).  For a freshly active
session with the three concrete questions `exQ1..exQ3`, after answering
question 1 (option 1) — which persists a snapshot — rehydrating with
`resumeIfAvailable()` yields `hasSubmitted = false`, not `true` as claimed:
the resume path assigns `hasSubmitted.value = false` unconditionally (the
flag is not part of the snapshot). -/
theorem C2_counterexample :
    ((QuizWorld.resumeIfAvailable
        ((QuizWorld.submitAnswer
            (QuizWorld.selectOption (freshActiveQuizWorld [exQ1, exQ2, exQ3] "gk" 0) 1 1)
            2).2)).2).rt.hasSubmitted = false := by
  decide

/-- C2 (amended).  Snapshot round-trip for the standard quiz session: for a
freshly active session with any 3 questions and any category with a truthy
(non-empty) key — every `CategoryKey` of the source is one — after answering
question 1 with any option `a` (which persists a snapshot), rehydrating via
`resumeIfAvailable()` succeeds and reproduces `currentIndex = 0` and
`selectedAnswers = {q1: a}`, and recomputes the current selection
`selectedIndex = a` from `selectedAnswers`; but `hasSubmitted` is `false`
after a resume (the flag is not persisted; the just-submitted answer survives
only as the pre-selected option). -/
theorem C2_snapshot_roundtrip (q1 q2 q3 : QuizQuestion) (a : Nat) (cat : String)
    (t0 t1 t2 : Nat) (hcat : cat ≠ "") :
    (QuizWorld.resumeIfAvailable
        ((QuizWorld.submitAnswer
            (QuizWorld.selectOption (freshActiveQuizWorld [q1, q2, q3] cat t0) a t1)
            t2).2)).1 = true ∧
      ((QuizWorld.resumeIfAvailable
        ((QuizWorld.submitAnswer
            (QuizWorld.selectOption (freshActiveQuizWorld [q1, q2, q3] cat t0) a t1)
            t2).2)).2).rt.currentIndex = 0 ∧
      ((QuizWorld.resumeIfAvailable
        ((QuizWorld.submitAnswer
            (QuizWorld.selectOption (freshActiveQuizWorld [q1, q2, q3] cat t0) a t1)
            t2).2)).2).rt.selectedAnswers = [(q1.id, Ans.answered a)] ∧
      ((QuizWorld.resumeIfAvailable
        ((QuizWorld.submitAnswer
            (QuizWorld.selectOption (freshActiveQuizWorld [q1, q2, q3] cat t0) a t1)
            t2).2)).2).rt.selectedIndex = some a ∧
      ((QuizWorld.resumeIfAvailable
        ((QuizWorld.submitAnswer
            (QuizWorld.selectOption (freshActiveQuizWorld [q1, q2, q3] cat t0) a t1)
            t2).2)).2).rt.hasSubmitted = false := by
  simp [freshActiveQuizWorld, QuizWorld.persistSession, QuizWorld.touchAndPersist,
    QuizWorld.selectOption, QuizWorld.submitAnswer, QuizWorld.resumeIfAvailable,
    QuizRuntime.buildSession, QuizRuntime.current, QuizRuntime.initial, safeReadSession,
    jsIndex, recGet, recSet, LifelineUsage.initial, hcat]

/-- Witness for C2's amended theorem at concrete inputs: the three questions
`exQ1..exQ3`, answer 1 to question 1, category `"gk"`. -/
theorem C2_snapshot_roundtrip_witness :
    (QuizWorld.resumeIfAvailable
        ((QuizWorld.submitAnswer
            (QuizWorld.selectOption (freshActiveQuizWorld [exQ1, exQ2, exQ3] "gk" 0) 1 1)
            2).2)).1 = true ∧
      ((QuizWorld.resumeIfAvailable
        ((QuizWorld.submitAnswer
            (QuizWorld.selectOption (freshActiveQuizWorld [exQ1, exQ2, exQ3] "gk" 0) 1 1)
            2).2)).2).rt.currentIndex = 0 ∧
      ((QuizWorld.resumeIfAvailable
        ((QuizWorld.submitAnswer
            (QuizWorld.selectOption (freshActiveQuizWorld [exQ1, exQ2, exQ3] "gk" 0) 1 1)
            2).2)).2).rt.selectedAnswers = [(exQ1.id, Ans.answered 1)] ∧
      ((QuizWorld.resumeIfAvailable
        ((QuizWorld.submitAnswer
            (QuizWorld.selectOption (freshActiveQuizWorld [exQ1, exQ2, exQ3] "gk" 0) 1 1)
            2).2)).2).rt.selectedIndex = some 1 ∧
      ((QuizWorld.resumeIfAvailable
        ((QuizWorld.submitAnswer
            (QuizWorld.selectOption (freshActiveQuizWorld [exQ1, exQ2, exQ3] "gk" 0) 1 1)
            2).2)).2).rt.hasSubmitted = false :=
  C2_snapshot_roundtrip exQ1 exQ2 exQ3 1 "gk" 0 1 2 (by decide)

/-- C5 (as stated, refuted at a concrete input).  On a fresh session with
`exQ1` current, the first `useFiftyFifty()` returns the hidden set `[0, 2]`,
but the second call — the lifeline flag now being set — returns
`{ok: false, hidden: []}`, not the same hidden set. -/
theorem C5_counterexample :
    (QuizWorld.useFiftyFifty
          ((QuizWorld.useFiftyFifty (freshActiveQuizWorld [exQ1, exQ2, exQ3] "gk" 0)
            (fun l => l) 1).2) (fun l => l) 2).1.hidden
        ≠ (QuizWorld.useFiftyFifty (freshActiveQuizWorld [exQ1, exQ2, exQ3] "gk" 0)
            (fun l => l) 1).1.hidden := by
  decide

/-- C5 (amended).  In both the standard and the daily store, a first
`useFiftyFifty()` on a question with no previously stored hidden set succeeds
and stores its hidden set for that question; the second call in a row is then
a complete no-op: it returns `{ok: false, hidden: []}` and leaves the whole
state — in particular the stored hidden-option set — unchanged, so
previously hidden options are never un-hidden (but the call does not return
the first call's hidden set again). -/
theorem C5_fifty_fifty_second_call (w : QuizWorld) (dw : DailyWorld)
    (shuffle shuffle' : List Nat → List Nat) (dshuffle dshuffle' : String → List Nat → List Nat)
    (ts1 ts2 : Nat) (cur dcur : QuizQuestion)
    (hcur : w.rt.current = some cur)
    (hused : w.rt.lifelines.fiftyFiftyUsed = false)
    (hfresh : (recGet w.rt.fiftyFiftyHidden cur.id).getD [] = [])
    (hdcur : dw.rt.current = some dcur)
    (hdused : dw.rt.lifelines.fiftyFiftyUsed = false) :
    ((QuizWorld.useFiftyFifty w shuffle ts1).1.ok = true ∧
        recGet ((QuizWorld.useFiftyFifty w shuffle ts1).2).rt.fiftyFiftyHidden cur.id
          = some (QuizWorld.useFiftyFifty w shuffle ts1).1.hidden ∧
        QuizWorld.useFiftyFifty ((QuizWorld.useFiftyFifty w shuffle ts1).2) shuffle' ts2
          = ({ ok := false, hidden := [] }, (QuizWorld.useFiftyFifty w shuffle ts1).2)) ∧
      ((DailyWorld.useFiftyFifty dw dshuffle ts1).1.ok = true ∧
        recGet ((DailyWorld.useFiftyFifty dw dshuffle ts1).2).rt.fiftyFiftyHidden dcur.id
          = some (DailyWorld.useFiftyFifty dw dshuffle ts1).1.hidden ∧
        DailyWorld.useFiftyFifty ((DailyWorld.useFiftyFifty dw dshuffle ts1).2) dshuffle' ts2
          = ({ ok := false, hidden := [] }, (DailyWorld.useFiftyFifty dw dshuffle ts1).2)) := by
  have hcur' := hcur
  have hdcur' := hdcur
  simp only [QuizRuntime.current] at hcur'
  simp only [DailyRuntime.current] at hdcur'
  constructor
  · simp [QuizWorld.useFiftyFifty, QuizRuntime.current, hcur', hused, hfresh,
      QuizWorld.touchAndPersist, QuizWorld.persistSession, recGet_recSet_self]
  · simp [DailyWorld.useFiftyFifty, DailyRuntime.current, hdcur', hdused,
      DailyWorld.persistSession, recGet_recSet_self]

/-- Witness for C5 at concrete inputs: the standard call on a fresh session
succeeds and the immediate second call is the no-op result, and likewise for
the daily store. -/
theorem C5_fifty_fifty_second_call_witness :
    ((QuizWorld.useFiftyFifty (freshActiveQuizWorld [exQ1, exQ2, exQ3] "gk" 0)
        (fun l => l) 1).1.ok = true ∧
      QuizWorld.useFiftyFifty
          ((QuizWorld.useFiftyFifty (freshActiveQuizWorld [exQ1, exQ2, exQ3] "gk" 0)
            (fun l => l) 1).2) (fun l => l) 2
        = ({ ok := false, hidden := [] },
            (QuizWorld.useFiftyFifty (freshActiveQuizWorld [exQ1, exQ2, exQ3] "gk" 0)
              (fun l => l) 1).2)) ∧
      (DailyWorld.useFiftyFifty exDailyWorld (fun _ l => l) 1).1.ok = true := by
  have h := C5_fifty_fifty_second_call (freshActiveQuizWorld [exQ1, exQ2, exQ3] "gk" 0)
    exDailyWorld (fun l => l) (fun l => l) (fun _ l => l) (fun _ l => l) 1 2 exQ1 exQ1
    (by decide) (by decide) (by decide) (by decide) (by decide)
  exact ⟨⟨h.1.1, h.1.2.2⟩, h.2.1⟩

/-- Any `m ≤ 2`-element prefix of a list drawn from a pool of wrong options
avoids the correct index and has at most two elements. -/
theorem take_pool_sound (ai : Nat) (pool shuffled : List Nat)
    (hsub : ∀ x ∈ shuffled, x ∈ pool) (hpool : ∀ x ∈ pool, x ≠ ai) (m : Nat) (hm : m ≤ 2) :
    ai ∉ shuffled.take m ∧ (shuffled.take m).length ≤ 2 := by
  constructor
  · intro hmem
    exact hpool ai (hsub ai (List.mem_of_mem_take hmem)) rfl
  · calc (shuffled.take m).length ≤ m := by
          rw [List.length_take]
          exact min_le_left _ _
      _ ≤ 2 := hm

/-- C10.  In both stores, the hidden set produced by `useFiftyFifty` never
contains the current question's correct option index and has at most two
indices.  Hypotheses: the sort-with-random-comparator permutes its input
(guaranteed by JS array sort), and — standard store only, whose
already-computed branch replays a stored set — any hidden set already stored
for the current question satisfies the same property (every stored set is
produced by this very operation, so this is the maintained invariant). -/
theorem C10_fifty_fifty_never_hides_correct (w : QuizWorld) (dw : DailyWorld)
    (shuffle : List Nat → List Nat) (dshuffle : String → List Nat → List Nat)
    (ts : Nat) (cur dcur : QuizQuestion)
    (hcur : w.rt.current = some cur)
    (hperm : ∀ l, List.Perm (shuffle l) l)
    (hstored : ∀ l, recGet w.rt.fiftyFiftyHidden cur.id = some l →
      cur.answerIndex ∉ l ∧ l.length ≤ 2)
    (hdcur : dw.rt.current = some dcur)
    (hdperm : ∀ s l, List.Perm (dshuffle s l) l) :
    (cur.answerIndex ∉ (QuizWorld.useFiftyFifty w shuffle ts).1.hidden ∧
        (QuizWorld.useFiftyFifty w shuffle ts).1.hidden.length ≤ 2) ∧
      (dcur.answerIndex ∉ (DailyWorld.useFiftyFifty dw dshuffle ts).1.hidden ∧
        (DailyWorld.useFiftyFifty dw dshuffle ts).1.hidden.length ≤ 2) := by
  constructor
  · unfold QuizWorld.useFiftyFifty
    rw [hcur]
    dsimp only
    by_cases hused : w.rt.lifelines.fiftyFiftyUsed
    · simp [hused]
    · simp only [hused, Bool.false_eq_true, if_false]
      by_cases halready : ((recGet w.rt.fiftyFiftyHidden cur.id).getD []).isEmpty = false
      · rw [if_pos halready]
        cases hre : recGet w.rt.fiftyFiftyHidden cur.id with
        | none =>
          rw [hre] at halready
          simp at halready
        | some l =>
          have := hstored l hre
          simpa using this
      · rw [if_neg halready]
        dsimp only
        apply take_pool_sound cur.answerIndex _ _
          (fun x hx => (hperm _).mem_iff.mp hx) ?_ _ (min_le_left _ _)
        intro x hx
        by_cases hn : 2 ≤ (((List.range cur.options.length).filter
            (fun i => i ≠ cur.answerIndex)).filter
              (fun i => w.rt.selectedIndex ≠ some i)).length
        · rw [if_pos hn] at hx
          have := (List.mem_filter.mp hx).1
          exact of_decide_eq_true (List.mem_filter.mp this).2
        · rw [if_neg hn] at hx
          exact of_decide_eq_true (List.mem_filter.mp hx).2
  · unfold DailyWorld.useFiftyFifty
    rw [hdcur]
    dsimp only
    by_cases hdused : dw.rt.lifelines.fiftyFiftyUsed
    · simp [hdused]
    · simp only [hdused, Bool.false_eq_true, if_false]
      apply take_pool_sound dcur.answerIndex _ _
        (fun x hx => (hdperm _ _).mem_iff.mp hx) ?_ _ (min_le_left _ _)
      intro x hx
      exact of_decide_eq_true (List.mem_filter.mp hx).2

/-- Witness for C10 at concrete inputs (identity shuffles, a fresh standard
session and a fresh daily session whose current question is `exQ1` with
correct index 1). -/
theorem C10_fifty_fifty_never_hides_correct_witness :
    (exQ1.answerIndex ∉ (QuizWorld.useFiftyFifty
          (freshActiveQuizWorld [exQ1, exQ2, exQ3] "gk" 0) (fun l => l) 1).1.hidden ∧
        (QuizWorld.useFiftyFifty (freshActiveQuizWorld [exQ1, exQ2, exQ3] "gk" 0)
            (fun l => l) 1).1.hidden.length ≤ 2) ∧
      (exQ1.answerIndex ∉ (DailyWorld.useFiftyFifty exDailyWorld (fun _ l => l) 1).1.hidden ∧
        (DailyWorld.useFiftyFifty exDailyWorld (fun _ l => l) 1).1.hidden.length ≤ 2) := by
  have hst : ∀ l, recGet (freshActiveQuizWorld [exQ1, exQ2, exQ3] "gk" 0).rt.fiftyFiftyHidden
      exQ1.id = some l → exQ1.answerIndex ∉ l ∧ l.length ≤ 2 := by
    intro l hl
    rw [show recGet (freshActiveQuizWorld [exQ1, exQ2, exQ3] "gk" 0).rt.fiftyFiftyHidden
        exQ1.id = none from by decide] at hl
    cases hl
  exact C10_fifty_fifty_never_hides_correct (freshActiveQuizWorld [exQ1, exQ2, exQ3] "gk" 0)
    exDailyWorld (fun l => l) (fun _ l => l) 1 exQ1 exQ1 (by decide)
    (fun l => List.Perm.refl l) hst (by decide) (fun _ l => List.Perm.refl l)

/-- C1.  Calling `add` a second time with the same id is a complete no-op
(balance, lifetimeEarned and history are exactly those after the first call;
this part holds for every starting ledger state), and when the id was fresh
before the first call, the history afterwards contains exactly one entry with
that id.  Idempotency requires a non-empty id, as the source documents. -/
theorem C1_coins_add_idempotent (s : CoinsState) (delta : Int) (reason : CoinReason)
    (id : String) (meta : Option (List (String × MetaVal))) (ts1 ts2 : Nat)
    (hid : id ≠ "") :
    (s.add delta reason id meta ts1).add delta reason id meta ts2
        = s.add delta reason id meta ts1 ∧
      (s.history.countP (fun h => h.id = id) = 0 →
        (s.add delta reason id meta ts1).history.countP (fun h => h.id = id) = 1) := by
  constructor
  · by_cases hex : s.history.any (fun h => h.id = id)
    · simp only [CoinsState.add, if_neg hid, if_pos hex]
    · simp only [CoinsState.add, if_neg hid, if_neg hex]
      have : (s.history ++
          [({ id := id, ts := ts1, delta := delta, reason := reason,
              meta := meta } : CoinHistoryItem)]).any
            (fun h => h.id = id) = true := by
        simp [List.any_append]
      simp [this]
  · intro hcount
    have hex : s.history.any (fun h => h.id = id) = false := by
      rw [List.any_eq_false]
      intro h hh
      have := List.countP_eq_zero.mp hcount h hh
      simpa using this
    simp only [CoinsState.add, if_neg hid, hex, Bool.false_eq_true, if_false]
    rw [List.countP_append, hcount]
    simp

/-- Witness for C1 at a concrete input: a fresh ledger, `add 10 _ "X"` twice. -/
theorem C1_coins_add_idempotent_witness :
    (CoinsState.initial.add 10 CoinReason.bonus "X" none 5).add 10 CoinReason.bonus "X" none 9
        = CoinsState.initial.add 10 CoinReason.bonus "X" none 5 ∧
      (CoinsState.initial.add 10 CoinReason.bonus "X" none 5).history.countP
          (fun h => h.id = "X") = 1 := by
  have h := C1_coins_add_idempotent CoinsState.initial 10 CoinReason.bonus "X" none 5 9
    (by decide)
  exact ⟨h.1, h.2 (by decide)⟩

end QuizMaster
